import Mathlib

/-!
Shallow embedding of the maintenance layer of the Substrate transaction
pool (`src/client/transaction-pool/src/lib.rs`): the `RevalidationStatus`
state machine, the `RevalidationStrategy` decision function, and the
`maintain` coordinator of `BasicPool`.

Modelling conventions:
* block numbers (`NumberFor<Block>`, a `SimpleArithmetic` type) are `Nat`;
* `std::time::Instant` and `std::time::Duration` are `Nat` (seconds);
  `Instant::now()` is an effect, so every function that calls it takes the
  current time `now` as an explicit argument;
* fallible `ChainApi` calls return `Except Nat _` (the error payload is an
  opaque code);
* the external `Pool` collaborator is modelled as an environment
  (`PoolState`) read by `maintain`, and the pool operations `maintain`
  performs are recorded as a trace of `PoolEvent`s; `log::...` calls are
  no-ops, so a pool-mutation result that the source merely logs is carried
  in the environment and ignored by the embedding, exactly as the source
  ignores it apart from logging.
-/

namespace TxPool

/-- Embeds `RevalidationStatus<N>` from the source: `NotScheduled`,
`Scheduled(Option<Instant>, Option<N>)`, `InProgress`. -/
inductive RevalidationStatus where
  | NotScheduled : RevalidationStatus
  | Scheduled (revalidate_at_time : Option Nat) (revalidate_at_block : Option Nat) : RevalidationStatus
  | InProgress : RevalidationStatus
deriving DecidableEq, Repr

/-- Embeds `RevalidationStatus::clear`: `*self = Self::NotScheduled`. -/
def RevalidationStatus.clear (_ : RevalidationStatus) : RevalidationStatus :=
  RevalidationStatus.NotScheduled

/-- Embeds `RevalidationStatus::next_required(block, revalidate_time_period,
revalidate_block_period)`. The source mutates `self` and returns a `bool`;
the embedding returns the pair (result, new status). `Instant::now()` is the
explicit argument `now`. -/
def RevalidationStatus.next_required (s : RevalidationStatus) (now : Nat) (block : Nat)
    (revalidate_time_period : Option Nat) (revalidate_block_period : Option Nat) :
    Bool × RevalidationStatus :=
  match s with
  | .NotScheduled =>
      (false, .Scheduled
        (revalidate_time_period.map (fun period => now + period))
        (revalidate_block_period.map (fun period => block + period)))
  | .Scheduled revalidate_at_time revalidate_at_block =>
      let is_required :=
        (revalidate_at_time.map (fun t => decide (now ≥ t))).getD false
          || (revalidate_at_block.map (fun b => decide (block ≥ b))).getD false
      (is_required,
        if is_required then .InProgress
        else .Scheduled revalidate_at_time revalidate_at_block)
  | .InProgress => (false, .InProgress)

/-- Embeds `RevalidationStrategy<N>`: `Always` or `Light(RevalidationStatus<N>)`. -/
inductive RevalidationStrategy where
  | Always : RevalidationStrategy
  | Light (status : RevalidationStatus) : RevalidationStrategy
deriving DecidableEq, Repr

/-- Embeds `RevalidationAction { revalidate, resubmit, revalidate_amount }`. -/
structure RevalidationAction where
  revalidate : Bool
  resubmit : Bool
  revalidate_amount : Option Nat
deriving DecidableEq, Repr

/-- Embeds `RevalidationStrategy::clear`: delegates to the inner status in the
`Light` case, does nothing for `Always`. -/
def RevalidationStrategy.clear : RevalidationStrategy → RevalidationStrategy
  | .Light status => .Light status.clear
  | .Always => .Always

/-- Embeds `RevalidationStrategy::next(block, revalidate_time_period,
revalidate_block_period)`, returning the action together with the updated
strategy (the source mutates `self`). -/
def RevalidationStrategy.next (s : RevalidationStrategy) (now : Nat) (block : Nat)
    (revalidate_time_period : Option Nat) (revalidate_block_period : Option Nat) :
    RevalidationAction × RevalidationStrategy :=
  match s with
  | .Light status =>
      let r := status.next_required now block revalidate_time_period revalidate_block_period
      ({ revalidate := r.1, resubmit := false, revalidate_amount := none }, .Light r.2)
  | .Always =>
      ({ revalidate := true, resubmit := true, revalidate_amount := some 16 }, .Always)

/-- Inputs of one maintenance call for replaying a sequence of calls:
current time, block number, and the two optional periods. -/
structure CallArgs where
  now : Nat
  block : Nat
  time_period : Option Nat
  block_period : Option Nat

/-- Replay a sequence of `RevalidationStrategy::next` calls, keeping only the
evolving strategy state. -/
def RevalidationStrategy.run (s : RevalidationStrategy) (calls : List CallArgs) :
    RevalidationStrategy :=
  calls.foldl (fun s c => (s.next c.now c.block c.time_period c.block_period).2) s

/-- Embeds `BlockId<Block>`: identifies a block by hash or by number. Hashes are
opaque `Nat`s. -/
inductive BlockId where
  | hash (h : Nat) : BlockId
  | number (n : Nat) : BlockId
deriving DecidableEq, Repr

/-- An extrinsic (transaction). `data` is its opaque payload identity;
`is_signed` mirrors `Extrinsic::is_signed(&self) -> Option<bool>`. -/
structure Tx where
  data : Nat
  is_signed : Option Bool
deriving DecidableEq, Repr

/-- The `ChainApi` collaborator: `block_id_to_number` and `block_body`, both
fallible and possibly returning nothing. -/
structure ChainApi where
  block_id_to_number : BlockId → Except Nat (Option Nat)
  block_body : BlockId → Except Nat (Option (List Tx))

/-- The read-only view of the external `Pool` that `maintain` consults:
whether `pool.status()` is empty, the hash function `pool.hash_of`, and the
results the pool mutation calls would return (the source only logs them). -/
structure PoolState where
  status_is_empty : Bool
  hash_of : Tx → Nat
  prune_known_result : Except Nat Unit
  submit_at_result : Except Nat Unit
  revalidate_ready_result : Except Nat Unit

/-- One externally visible pool / chain operation performed by `maintain`,
in order. -/
inductive PoolEvent where
  | fetchBody (id : BlockId) : PoolEvent
  | pruneKnown (id : BlockId) (hashes : List Nat) : PoolEvent
  | submitAt (id : BlockId) (txs : List Tx) (resubmission : Bool) : PoolEvent
  | revalidateReady (id : BlockId) (amount : Option Nat) : PoolEvent
deriving DecidableEq, Repr

/-- Whether an event is a `pool.submit_at` call. -/
def PoolEvent.isSubmit : PoolEvent → Bool
  | .submitAt _ _ _ => true
  | _ => false

/-- Embeds the body-fetch default of the source, `block_body` then `unwrap_or_else` (log, `None`) then `unwrap_or_default()`:
a failed or absent block body is treated as the empty transaction list. -/
def bodyOrEmpty (api : ChainApi) (id : BlockId) : List Tx :=
  match api.block_body id with
  | .error _ => []
  | .ok none => []
  | .ok (some txs) => txs

/-- The pruning step of `maintain`: if the pool is non-empty, fetch the new
body of the head, map its transactions to pool hashes and call `prune_known`
(whose error the source only logs). -/
def prunePhase (api : ChainApi) (pool : PoolState) (id : BlockId) : List PoolEvent :=
  if !pool.status_is_empty then
    let hashes := (bodyOrEmpty api id).map pool.hash_of
    [.fetchBody id, .pruneKnown id hashes]
  else []

/-- The resubmission step of `maintain`: when the action asks for it, fetch
the body of every retracted block (failures treated as empty), keep the
transactions whose `is_signed()` is `Some(true)` or `None`
(`tx.is_signed().unwrap_or(true)`), accumulate across retracted blocks in
order, and submit the lot at the new head with the resubmission flag set. -/
def resubmitPhase (api : ChainApi) (id : BlockId) (retracted : List Nat)
    (resubmit : Bool) : List PoolEvent :=
  if resubmit then
    let resubmit_transactions := retracted.flatMap (fun retracted_hash =>
      (bodyOrEmpty api (BlockId.hash retracted_hash)).filter
        (fun tx => tx.is_signed.getD true))
    retracted.map (fun retracted_hash => PoolEvent.fetchBody (BlockId.hash retracted_hash))
      ++ [.submitAt id resubmit_transactions true]
  else []

/-- The revalidation step of `maintain`: when the action asks for it, call
`revalidate_ready` with the amount carried by the action. -/
def revalidatePhase (id : BlockId) (next_action : RevalidationAction) : List PoolEvent :=
  if next_action.revalidate then [.revalidateReady id next_action.revalidate_amount]
  else []

/-- The outcome of one `maintain` call: the ordered pool / chain operations
it performed and the revalidation strategy state it leaves behind. -/
structure MaintainResult where
  trace : List PoolEvent
  strategy : RevalidationStrategy
deriving Repr

/-- Embeds `BasicPool::maintain(id, retracted)`. Resolve the number of the head (abort
with no state change if that fails or yields nothing), take the next action
from the strategy with the fixed 60-second / 20-block windows, run the
pruning, resubmission and revalidation steps, and finally clear the
strategy. Pool-call errors are only logged in the source, hence ignored
here. -/
def maintain (api : ChainApi) (pool : PoolState) (strategy : RevalidationStrategy)
    (now : Nat) (id : BlockId) (retracted : List Nat) : MaintainResult :=
  match api.block_id_to_number id with
  | .ok (some block_number) =>
      let r := strategy.next now block_number (some 60) (some 20)
      { trace := prunePhase api pool id
          ++ resubmitPhase api id retracted r.1.resubmit
          ++ revalidatePhase id r.1,
        strategy := r.2.clear }
  | _ => { trace := [], strategy := strategy }

/-- A chain api whose head-number lookup resolves to nothing. -/
def apiHeadless : ChainApi where
  block_id_to_number := fun _ => .ok none
  block_body := fun _ => .ok none

/-- A chain api that resolves every id to block number 5 but fails every
block-body fetch with error code 7. -/
def apiBodyFail : ChainApi where
  block_id_to_number := fun _ => .ok (some 5)
  block_body := fun _ => .error 7

/-- A chain api that resolves every id to block number 5 and returns a
three-transaction body (signed, unsigned, unknown signature). -/
def apiDemo : ChainApi where
  block_id_to_number := fun _ => .ok (some 5)
  block_body := fun _ => .ok (some [⟨1, some true⟩, ⟨2, some false⟩, ⟨3, none⟩])

/-- An empty pool whose hash function is the transaction payload. -/
def poolEmptyDemo : PoolState where
  status_is_empty := true
  hash_of := fun tx => tx.data
  prune_known_result := .ok ()
  submit_at_result := .ok ()
  revalidate_ready_result := .ok ()

/-- A non-empty pool whose hash function is the transaction payload. -/
def poolBusyDemo : PoolState where
  status_is_empty := false
  hash_of := fun tx => tx.data
  prune_known_result := .ok ()
  submit_at_result := .ok ()
  revalidate_ready_result := .ok ()

/-! ## Sanity checks on concrete inputs -/

example : (RevalidationStatus.Scheduled (some 10) (some 7)).next_required 10 0 none none =
    (true, .InProgress) := by decide

example : (RevalidationStatus.Scheduled (some 10) (some 7)).next_required 9 6 none none =
    (false, .Scheduled (some 10) (some 7)) := by decide

example : (RevalidationStatus.Scheduled (some 10) (some 7)).next_required 3 7 none none =
    (true, .InProgress) := by decide

example : RevalidationStatus.NotScheduled.next_required 100 5 (some 60) (some 20) =
    (false, .Scheduled (some 160) (some 25)) := by decide

example : RevalidationStatus.InProgress.next_required 1000 1000 (some 1) (some 1) =
    (false, .InProgress) := by decide

/-! ## Claims -/

/-- C1: in state `Scheduled(t?, b?)`, `next_required` returns `true` and
moves to `InProgress` exactly when the time deadline is set and reached
(`now ≥ t`) or the block deadline is set and reached (`block ≥ b`) — OR
semantics; otherwise it returns `false` and the status stays `Scheduled`
with the same deadlines. -/
theorem scheduled_next_required_iff (t? b? : Option Nat) (now block : Nat)
    (tp bp : Option Nat) :
    (((RevalidationStatus.Scheduled t? b?).next_required now block tp bp).1 = true ↔
      (∃ t, t? = some t ∧ now ≥ t) ∨ (∃ b, b? = some b ∧ block ≥ b)) ∧
    (((RevalidationStatus.Scheduled t? b?).next_required now block tp bp).1 = true →
      ((RevalidationStatus.Scheduled t? b?).next_required now block tp bp).2 =
        RevalidationStatus.InProgress) ∧
    (((RevalidationStatus.Scheduled t? b?).next_required now block tp bp).1 = false →
      ((RevalidationStatus.Scheduled t? b?).next_required now block tp bp).2 =
        RevalidationStatus.Scheduled t? b?) := by
  cases t? <;> cases b?
  case none.none => simp [RevalidationStatus.next_required]
  case none.some b => by_cases h : block ≥ b <;> simp [RevalidationStatus.next_required, h]
  case some.none t => by_cases h : now ≥ t <;> simp [RevalidationStatus.next_required, h]
  case some.some t b =>
    by_cases ht : now ≥ t <;> by_cases hb : block ≥ b <;>
      simp [RevalidationStatus.next_required, ht, hb]

/-- C2: in state `NotScheduled`, `next_required` returns `false` and arms the
schedule: `Scheduled(now + time_period, block + block_period)`, each
deadline present exactly when its period is. -/
theorem not_scheduled_next_required (now block : Nat) (tp bp : Option Nat) :
    RevalidationStatus.NotScheduled.next_required now block tp bp =
      (false, .Scheduled (tp.map (fun period => now + period))
                         (bp.map (fun period => block + period))) := rfl

/-- C3: in state `InProgress`, `next_required` always returns `false` and
stays `InProgress` (no re-entry of a running pass), and `clear` resets any
status to `NotScheduled`. -/
theorem in_progress_no_reentry_and_clear_resets :
    (∀ now block tp bp, RevalidationStatus.InProgress.next_required now block tp bp =
      (false, RevalidationStatus.InProgress)) ∧
    (∀ s : RevalidationStatus, s.clear = RevalidationStatus.NotScheduled) :=
  ⟨fun _ _ _ _ => rfl, fun _ => rfl⟩

/-- C4: the `Always` strategy, after any sequence of prior calls and for any
arguments, answers `{ revalidate := true, resubmit := true,
revalidate_amount := some 16 }` and stays `Always`. -/
theorem always_strategy_constant (calls : List CallArgs) (now block : Nat)
    (tp bp : Option Nat) :
    (RevalidationStrategy.Always.run calls).next now block tp bp =
      ({ revalidate := true, resubmit := true, revalidate_amount := some 16 },
        RevalidationStrategy.Always) := by
  have h : RevalidationStrategy.Always.run calls = RevalidationStrategy.Always := by
    induction calls with
    | nil => rfl
    | cons c cs ih =>
        simpa [RevalidationStrategy.run, RevalidationStrategy.next] using ih
  rw [h]; rfl

/-- The pruning step never issues a `submit_at` call. -/
theorem filter_isSubmit_prunePhase (api : ChainApi) (pool : PoolState) (id : BlockId) :
    (prunePhase api pool id).filter PoolEvent.isSubmit = [] := by
  rw [prunePhase]; split <;> simp [PoolEvent.isSubmit]

/-- The revalidation step never issues a `submit_at` call. -/
theorem filter_isSubmit_revalidatePhase (id : BlockId) (a : RevalidationAction) :
    (revalidatePhase id a).filter PoolEvent.isSubmit = [] := by
  rw [revalidatePhase]; split <;> simp [PoolEvent.isSubmit]

/-- C5: the `Light` strategy always answers `resubmit := false` and
`revalidate_amount := none`, with `revalidate` taken from the inner status and its
`next_required`; consequently a `maintain` cycle under `Light` never issues a
`submit_at` call, whatever the retracted set. -/
theorem light_strategy_never_resubmits :
    (∀ status now block tp bp,
      (RevalidationStrategy.Light status).next now block tp bp =
        ({ revalidate := (status.next_required now block tp bp).1, resubmit := false,
           revalidate_amount := none },
          RevalidationStrategy.Light (status.next_required now block tp bp).2)) ∧
    (∀ api pool status now id retracted,
      ((maintain api pool (RevalidationStrategy.Light status) now id retracted).trace.filter
        PoolEvent.isSubmit) = []) := by
  constructor
  · intro status now block tp bp; rfl
  · intro api pool status now id retracted
    cases hnum : api.block_id_to_number id with
    | error e => simp [maintain, hnum]
    | ok o =>
      cases o with
      | none => simp [maintain, hnum]
      | some n =>
        simp [maintain, hnum, RevalidationStrategy.next, List.filter_append,
          resubmitPhase, filter_isSubmit_prunePhase, filter_isSubmit_revalidatePhase]

/-- C6: when the number of the head cannot be resolved (`Err` or `Ok(None)`),
`maintain` aborts at once: empty operation trace and the strategy state
untouched. -/
theorem maintain_head_unresolvable (api : ChainApi) (pool : PoolState)
    (strategy : RevalidationStrategy) (now : Nat) (id : BlockId) (retracted : List Nat)
    (h : ∀ n, api.block_id_to_number id ≠ Except.ok (some n)) :
    maintain api pool strategy now id retracted = { trace := [], strategy := strategy } := by
  cases hnum : api.block_id_to_number id with
  | error e => simp [maintain, hnum]
  | ok o =>
    cases o with
    | none => simp [maintain, hnum]
    | some n => exact absurd hnum (h n)

/-- C6 witness: a lookup returning `Ok(None)` makes `maintain` a no-op. -/
theorem maintain_head_unresolvable_witness :
    maintain apiHeadless poolEmptyDemo .Always 0 (BlockId.number 0) [] =
      { trace := [], strategy := .Always } :=
  maintain_head_unresolvable apiHeadless poolEmptyDemo .Always 0 (BlockId.number 0) []
    (fun n hn => by simp [apiHeadless] at hn)

/-- A `pruneKnown` event found in the pruning step prunes exactly the pool
hashes of the (possibly defaulted) head body. -/
theorem mem_prunePhase_pruneKnown (api : ChainApi) (pool : PoolState) (id i : BlockId)
    (hs : List Nat) (h : PoolEvent.pruneKnown i hs ∈ prunePhase api pool id) :
    i = id ∧ hs = (bodyOrEmpty api id).map pool.hash_of := by
  rw [prunePhase] at h
  split at h
  · simpa using h
  · simp at h

/-- The resubmission step issues no `pruneKnown` event. -/
theorem not_mem_resubmitPhase_pruneKnown (api : ChainApi) (id : BlockId)
    (retracted : List Nat) (rs : Bool) (i : BlockId) (hs : List Nat) :
    PoolEvent.pruneKnown i hs ∉ resubmitPhase api id retracted rs := by
  rw [resubmitPhase]; split <;> simp

/-- The revalidation step issues no `pruneKnown` event. -/
theorem not_mem_revalidatePhase_pruneKnown (id : BlockId) (a : RevalidationAction)
    (i : BlockId) (hs : List Nat) :
    PoolEvent.pruneKnown i hs ∉ revalidatePhase id a := by
  rw [revalidatePhase]; split <;> simp

/-- C7: whenever the number of the head resolves, `maintain` leaves the strategy
cleared after the advance that produced the action of this cycle, whatever the
environment does; and if the body fetch for the head fails, every prune the cycle
performs prunes the empty hash list (no transaction is pruned) while the
strategy is still cleared. -/
theorem maintain_clears_strategy (api : ChainApi) (pool : PoolState)
    (strategy : RevalidationStrategy) (now : Nat) (id : BlockId) (retracted : List Nat)
    (n e : Nat) (hn : api.block_id_to_number id = Except.ok (some n)) :
    (maintain api pool strategy now id retracted).strategy =
      ((strategy.next now n (some 60) (some 20)).2).clear ∧
    (api.block_body id = Except.error e →
      ∀ i hs, PoolEvent.pruneKnown i hs ∈ (maintain api pool strategy now id retracted).trace →
        hs = []) := by
  constructor
  · simp [maintain, hn]
  · intro hbody i hs hmem
    simp only [maintain, hn, List.mem_append] at hmem
    rcases hmem with (hp | hr) | hv
    · have hhs := (mem_prunePhase_pruneKnown api pool id i hs hp).2
      rw [hhs, bodyOrEmpty, hbody]
      rfl
    · exact absurd hr (not_mem_resubmitPhase_pruneKnown api id retracted _ i hs)
    · exact absurd hv (not_mem_revalidatePhase_pruneKnown id _ i hs)

/-- C7 witness: with a failing body fetch the strategy ends cleared and any
prune is of the empty list. -/
theorem maintain_clears_strategy_witness :
    (maintain apiBodyFail poolBusyDemo .Always 0 (BlockId.number 5) []).strategy =
      ((RevalidationStrategy.Always.next 0 5 (some 60) (some 20)).2).clear ∧
    (apiBodyFail.block_body (BlockId.number 5) = Except.error 7 →
      ∀ i hs,
        PoolEvent.pruneKnown i hs ∈
          (maintain apiBodyFail poolBusyDemo .Always 0 (BlockId.number 5) []).trace →
        hs = []) :=
  maintain_clears_strategy apiBodyFail poolBusyDemo .Always 0 (BlockId.number 5) [] 5 7 rfl

/-- C8: recorded head body and pruning happen exactly when the pool is
non-empty — an empty pool skips the fetch/prune pair entirely — and when
they happen `prune_known` receives exactly the pool hashes of the fetched
transactions of the fetched body, a failed or absent body counting as the empty list;
and the result of the prune call (which the source only logs) has no effect
on the outcome of `maintain`. -/
theorem maintain_prune_policy (api : ChainApi) (pool : PoolState)
    (strategy : RevalidationStrategy) (now : Nat) (id : BlockId) (retracted : List Nat)
    (n : Nat) (hn : api.block_id_to_number id = Except.ok (some n)) :
    (pool.status_is_empty = true →
      (maintain api pool strategy now id retracted).trace =
        resubmitPhase api id retracted ((strategy.next now n (some 60) (some 20)).1).resubmit
          ++ revalidatePhase id (strategy.next now n (some 60) (some 20)).1) ∧
    (pool.status_is_empty = false →
      (maintain api pool strategy now id retracted).trace =
        PoolEvent.fetchBody id
          :: PoolEvent.pruneKnown id
              (match api.block_body id with
                | .ok (some txs) => txs.map pool.hash_of
                | .ok none => []
                | .error _ => [])
          :: (resubmitPhase api id retracted
                ((strategy.next now n (some 60) (some 20)).1).resubmit
              ++ revalidatePhase id (strategy.next now n (some 60) (some 20)).1)) ∧
    (∀ r, maintain api { pool with prune_known_result := r } strategy now id retracted =
        maintain api pool strategy now id retracted) := by
  refine ⟨?_, ?_, ?_⟩
  · intro he
    simp [maintain, hn, prunePhase, he]
  · intro he
    cases hbody : api.block_body id with
    | error e => simp [maintain, hn, prunePhase, he, bodyOrEmpty, hbody]
    | ok o => cases o <;> simp [maintain, hn, prunePhase, he, bodyOrEmpty, hbody]
  · intro r
    cases pool
    rfl

/-- C8 witness: with a non-empty pool the head body is fetched and its pool
hashes are pruned. -/
theorem maintain_prune_policy_witness :
    (maintain apiDemo poolBusyDemo .Always 0 (BlockId.number 5) [9]).trace =
      PoolEvent.fetchBody (BlockId.number 5)
        :: PoolEvent.pruneKnown (BlockId.number 5) [1, 2, 3]
        :: (resubmitPhase apiDemo (BlockId.number 5) [9] true
            ++ revalidatePhase (BlockId.number 5)
                 { revalidate := true, resubmit := true, revalidate_amount := some 16 }) :=
  (maintain_prune_policy apiDemo poolBusyDemo .Always 0 (BlockId.number 5) [9] 5 rfl).2.1 rfl

/-- C9: when the action of the cycle asks for resubmission, `maintain` fetches
the body of each retracted block in order and submits — at the new head, with
the resubmission flag set — the concatenation over the retracted blocks of
the transactions whose `is_signed()` is `Some(true)` or `None`; keeping a
transaction means its signature is `true` or unknown; and the result of the
submit call (which the source only logs) has no effect on the
outcome. -/
theorem maintain_resubmits_signed (api : ChainApi) (pool : PoolState)
    (strategy : RevalidationStrategy) (now : Nat) (id : BlockId) (retracted : List Nat)
    (n : Nat) (hn : api.block_id_to_number id = Except.ok (some n))
    (hr : ((strategy.next now n (some 60) (some 20)).1).resubmit = true) :
    ((maintain api pool strategy now id retracted).trace =
      prunePhase api pool id
        ++ (retracted.map (fun rh => PoolEvent.fetchBody (BlockId.hash rh))
            ++ [PoolEvent.submitAt id
                 (retracted.flatMap (fun rh =>
                   (bodyOrEmpty api (BlockId.hash rh)).filter
                     (fun tx => tx.is_signed.getD true))) true])
        ++ revalidatePhase id (strategy.next now n (some 60) (some 20)).1) ∧
    (∀ tx : Tx, tx.is_signed.getD true = true ↔
      (tx.is_signed = some true ∨ tx.is_signed = none)) ∧
    (∀ r, maintain api { pool with submit_at_result := r } strategy now id retracted =
        maintain api pool strategy now id retracted) := by
  refine ⟨?_, ?_, ?_⟩
  · simp [maintain, hn, resubmitPhase, hr]
  · intro tx
    cases htx : tx.is_signed with
    | none => simp [htx]
    | some b => cases b <;> simp [htx]
  · intro r
    cases pool
    rfl

/-- C9 witness: of the three transactions in a retracted block (signed, unsigned,
unknown) the signed and the unknown are resubmitted at the head, the
unsigned is dropped. -/
theorem maintain_resubmits_signed_witness :
    ((maintain apiDemo poolEmptyDemo .Always 0 (BlockId.number 5) [9]).trace =
      prunePhase apiDemo poolEmptyDemo (BlockId.number 5)
        ++ ([PoolEvent.fetchBody (BlockId.hash 9)]
            ++ [PoolEvent.submitAt (BlockId.number 5)
                 [⟨1, some true⟩, ⟨3, none⟩] true])
        ++ revalidatePhase (BlockId.number 5)
             { revalidate := true, resubmit := true, revalidate_amount := some 16 }) :=
  (maintain_resubmits_signed apiDemo poolEmptyDemo .Always 0 (BlockId.number 5) [9]
    5 rfl rfl).1

/-- C10: arming a fresh status with no time period and no block period
yields `Scheduled(none, none)`, a state in which `next_required` returns
`false` and changes nothing, for every later time, block and periods —
revalidation never becomes due. -/
theorem unarmed_schedule_never_fires (now block : Nat) :
    RevalidationStatus.NotScheduled.next_required now block none none =
      (false, RevalidationStatus.Scheduled none none) ∧
    (∀ later block' tp bp,
      (RevalidationStatus.Scheduled none none).next_required later block' tp bp =
        (false, RevalidationStatus.Scheduled none none)) :=
  ⟨rfl, fun _ _ _ _ => rfl⟩

end TxPool
